import Mathlib

/-!
Verification of the client resilience and synchronization layer of the
prep-trade dashboard: the `AdvancedCache` (TTL + LRU) from
`src/hooks/usePerformance.ts`, the retry-with-backoff executor and the
sliding-window rate limiter from `src/hooks/useNetworkRecovery.ts`, and the
Hyperliquid WebSocket connection hook.

Timestamps and durations are modelled as `Int` (JS `Date.now()` values and
millisecond durations; all arithmetic in the source stays on integers).
The JS `Map` is modelled as an association list in insertion order: `Map.set`
on a present key updates the entry in place, on an absent key it appends;
iteration order is insertion order, matching the JS semantics the eviction
code relies on.
-/

namespace PrepTrade

/-! ## Cache model — `AdvancedCache` in `src/hooks/usePerformance.ts` -/

structure CacheEntry (V : Type) where
  data : V
  timestamp : Int
  ttl : Int
  accessCount : Nat
  lastAccessed : Int
  tags : List String
deriving DecidableEq, Repr

structure CacheConfig where
  maxSize : Nat
  defaultTTL : Int
  enableLRU : Bool
deriving DecidableEq, Repr

/-- `DEFAULT_CACHE_CONFIG` (`cleanupInterval` concerns only the background
timer and is irrelevant to the claims, so it is not carried). -/
def DEFAULT_CACHE_CONFIG : CacheConfig :=
  { maxSize := 1000, defaultTTL := 5 * 60 * 1000, enableLRU := true }

/-- The `Map<string, CacheEntry>` in insertion order. -/
abbrev CacheMap (V : Type) := List (String × CacheEntry V)

/-- `this.cache.get(key)`: first (unique) binding for the key. -/
def lookupKey {V : Type} (k : String) (c : CacheMap V) : Option (CacheEntry V) :=
  (c.find? (fun p => p.1 = k)).map Prod.snd

/-- `this.cache.set(key, entry)`: replace in place if present, append if not. -/
def mapSet {V : Type} (k : String) (e : CacheEntry V) (c : CacheMap V) : CacheMap V :=
  if c.any (fun p => p.1 = k) then
    c.map (fun p => if p.1 = k then (k, e) else p)
  else
    c ++ [(k, e)]

/-- Expiry test used by `cleanup` and `get`: `now - entry.timestamp > entry.ttl`. -/
def isExpired {V : Type} (now : Int) (e : CacheEntry V) : Bool :=
  decide (now - e.timestamp > e.ttl)

/-- Stable insertion step for the ascending sort by `lastAccessed`
(`entries.sort((a, b) => a[1].lastAccessed - b[1].lastAccessed)`; JS
`Array.prototype.sort` is stable, and this insertion keeps earlier elements
in front of equal keys). -/
def insertByAccess {V : Type} (e : String × CacheEntry V) :
    CacheMap V → CacheMap V
  | [] => [e]
  | x :: xs =>
    if e.2.lastAccessed ≤ x.2.lastAccessed then e :: x :: xs
    else x :: insertByAccess e xs

/-- Stable sort of the entry list by ascending `lastAccessed`. -/
def sortByAccess {V : Type} : CacheMap V → CacheMap V
  | [] => []
  | x :: xs => insertByAccess x (sortByAccess xs)

/-- `cleanup()`: drop expired entries, then, if LRU is enabled and the store
still exceeds `maxSize`, delete the keys of the `size - maxSize` entries with
the oldest `lastAccessed`. -/
def cleanup {V : Type} (cfg : CacheConfig) (now : Int) (c : CacheMap V) :
    CacheMap V :=
  let live := c.filter (fun p => !isExpired now p.2)
  if cfg.enableLRU ∧ cfg.maxSize < live.length then
    let toRemove :=
      ((sortByAccess live).take (live.length - cfg.maxSize)).map Prod.fst
    live.filter (fun p => ¬ p.1 ∈ toRemove)
  else live

structure CacheState (V : Type) where
  entries : CacheMap V
  hitCount : Nat
  missCount : Nat
deriving DecidableEq, Repr

def emptyCacheState {V : Type} : CacheState V :=
  { entries := [], hitCount := 0, missCount := 0 }

/-- `set(key, data, ttl?, tags)`.  `ttl || this.config.defaultTTL` is falsy
on `0` and `undefined`, so both fall back to the default TTL.  An eviction
pass runs immediately when the store exceeds `maxSize`. -/
def cacheSet {V : Type} (cfg : CacheConfig) (now : Int) (k : String) (v : V)
    (ttlArg : Option Int) (tags : List String) (s : CacheState V) :
    CacheState V :=
  let e : CacheEntry V :=
    { data := v, timestamp := now,
      ttl := match ttlArg with
             | some t => if t = 0 then cfg.defaultTTL else t
             | none => cfg.defaultTTL,
      accessCount := 0, lastAccessed := now, tags := tags }
  let c := mapSet k e s.entries
  { s with entries := if cfg.maxSize < c.length then cleanup cfg now c else c }

/-- `get(key)`: miss on absent key; miss (with deletion) on an expired entry;
otherwise bump `accessCount`/`lastAccessed` and return the data. -/
def cacheGet {V : Type} (cfg : CacheConfig) (now : Int) (k : String)
    (s : CacheState V) : Option V × CacheState V :=
  match lookupKey k s.entries with
  | none => (none, { s with missCount := s.missCount + 1 })
  | some e =>
    if now - e.timestamp > e.ttl then
      (none, { s with entries := s.entries.filter (fun p => ¬ p.1 = k),
                      missCount := s.missCount + 1 })
    else
      (some e.data,
       { s with entries :=
                  mapSet k { e with accessCount := e.accessCount + 1,
                                    lastAccessed := now } s.entries,
                hitCount := s.hitCount + 1 })

structure CacheStats where
  size : Nat
  hitRate : ℚ
  hitCount : Nat
  missCount : Nat
  maxSize : Nat
deriving DecidableEq, Repr

/-- `getStats()`: `hitRate` is `(hitCount / total) * 100` with a guard
against a zero total. -/
def getStats {V : Type} (cfg : CacheConfig) (s : CacheState V) : CacheStats :=
  { size := s.entries.length,
    hitRate :=
      if 0 < s.hitCount + s.missCount then
        ((s.hitCount : ℚ) / ((s.hitCount : ℚ) + (s.missCount : ℚ))) * 100
      else 0,
    hitCount := s.hitCount, missCount := s.missCount,
    maxSize := cfg.maxSize }

/-- One `set` call of a sequence, with the `Date.now()` value at which it runs. -/
structure SetOp (V : Type) where
  now : Int
  key : String
  value : V
  ttlArg : Option Int
  tags : List String

def applySets {V : Type} (cfg : CacheConfig) :
    List (SetOp V) → CacheState V → CacheState V
  | [], s => s
  | op :: ops, s =>
    applySets cfg ops (cacheSet cfg op.now op.key op.value op.ttlArg op.tags s)

/-! ## Retry executor — `retryWithBackoff` in `src/hooks/useNetworkRecovery.ts` -/

structure RetryConfig where
  maxRetries : Nat
  initialDelay : Nat
  maxDelay : Nat
  backoffMultiplier : Nat
deriving DecidableEq, Repr

/-- `DEFAULT_RETRY_CONFIG` (the default `retryCondition` is passed separately
where a claim needs it). -/
def DEFAULT_RETRY_CONFIG : RetryConfig :=
  { maxRetries := 3, initialDelay := 1000, maxDelay := 30000,
    backoffMultiplier := 2 }

/-- The delay computed before the retry that follows failure number
`attempts`: `Math.min(initialDelay * Math.pow(backoffMultiplier, attempts),
maxDelay)`. -/
def retryDelay (cfg : RetryConfig) (attempts : Nat) : Nat :=
  min (cfg.initialDelay * cfg.backoffMultiplier ^ attempts) cfg.maxDelay

/-- Recursion of `retryWithBackoff`, structurally on
`remaining = maxRetries - attempts` (the attempts-map entry for the
operation id starts absent, i.e. `attempts = 0`, so `remaining` starts at
`maxRetries`; the guard `attempts < maxRetries` is `0 < remaining`).
`op i` is the outcome of the `i`-th invocation of the operation (0-based).
Returns the result surfaced to the caller, the total number of invocations
performed, and the final attempts-map entry for the operation id (the code
deletes the entry both on success and on the final failure, so it is always
`none`). -/
def retryGo {E V : Type} (retryable : E → Bool) (isOnline : Bool)
    (op : Nat → Except E V) : Nat → Nat → Except E V × Nat × Option Nat
  | 0, idx =>
    match op idx with
    | Except.ok v => (Except.ok v, 1, none)
    | Except.error err => (Except.error err, 1, none)
  | r + 1, idx =>
    match op idx with
    | Except.ok v => (Except.ok v, 1, none)
    | Except.error err =>
      if retryable err && isOnline then
        let res := retryGo retryable isOnline op r (idx + 1)
        (res.1, res.2.1 + 1, res.2.2)
      else (Except.error err, 1, none)

/-- `retryWithBackoff(operation, operationId)` for a fresh operation id
(no prior attempts-map entry). -/
def retryWithBackoff {E V : Type} (cfg : RetryConfig) (retryable : E → Bool)
    (isOnline : Bool) (op : Nat → Except E V) : Except E V × Nat × Option Nat :=
  retryGo retryable isOnline op cfg.maxRetries 0

/-! ## Rate limiter — `useRateLimit` in `src/hooks/useNetworkRecovery.ts` -/

/-- `Math.min(...requests)` for a nonempty array (`0` only reached on the
empty array, which `getResetTime` guards against). -/
def oldestRequest : List Int → Int
  | [] => 0
  | h :: t => t.foldl min h

/-- `getResetTime()`: `0` when no requests are recorded, otherwise the
oldest recorded timestamp plus the window duration. -/
def getResetTime (requests : List Int) (windowMs : Int) : Int :=
  if requests.isEmpty then 0 else oldestRequest requests + windowMs

/-! ## WebSocket connection hook — `useHyperliquidWebSocket` in the
Hyperliquid WebSocket source file -/

structure WSSub where
  type : String
  coin : Option String
  user : Option String
deriving DecidableEq, Repr

inductive WSOut where
  | subscribeMsg (sub : WSSub)
  | unsubscribeMsg (sub : WSSub)
  | pingMsg
deriving DecidableEq, Repr

inductive WSIn where
  | pong
  | dataFrame (channel : String)
deriving DecidableEq, Repr

structure WSConfig where
  reconnectAttempts : Nat
  reconnectInterval : Nat
  heartbeatInterval : Nat
  subscriptions : List WSSub
deriving DecidableEq, Repr

def DEFAULT_WS_CONFIG : WSConfig :=
  { reconnectAttempts := 5, reconnectInterval := 3000,
    heartbeatInterval := 30000, subscriptions := [] }

/-- The hook state plus the observable effects the claims speak about:
`sent` logs every frame passed to `ws.send`, `reconnectScheduled` holds the
delay of a pending `setTimeout(connect, delay)`, `heartbeatActive` whether
the ping interval timer is running, and `wsOpen` whether the socket's
`readyState` is `OPEN`. -/
structure WSState where
  wsOpen : Bool
  isConnected : Bool
  isConnecting : Bool
  reconnectCount : Nat
  pingTime : Int
  latency : Int
  sent : List WSOut
  reconnectScheduled : Option Nat
  heartbeatActive : Bool
deriving DecidableEq, Repr

def initialWSState : WSState :=
  { wsOpen := false, isConnected := false, isConnecting := false,
    reconnectCount := 0, pingTime := 0, latency := 0, sent := [],
    reconnectScheduled := none, heartbeatActive := false }

/-- `sendMessage(message)`: sends only when the socket is `OPEN`. -/
def sendMessage (m : WSOut) (s : WSState) : Bool × WSState :=
  if s.wsOpen then (true, { s with sent := s.sent ++ [m] }) else (false, s)

/-- `subscribe(subscription)`: just `sendMessage(subscription)` — no
subscription set is recorded anywhere. -/
def wsSubscribe (sub : WSSub) (s : WSState) : WSState :=
  (sendMessage (WSOut.subscribeMsg sub) s).2

/-- `sendPing()`: records the send time and sends `{method: "ping"}`. -/
def sendPing (now : Int) (s : WSState) : WSState :=
  if s.wsOpen then (sendMessage WSOut.pingMsg { s with pingTime := now }).2
  else s

/-- `handleMessage`: a pong only updates the measured latency; a data frame
leaves the connection state untouched. -/
def handleMessage (now : Int) (msg : WSIn) (s : WSState) : WSState :=
  match msg with
  | WSIn.pong => { s with latency := now - s.pingTime }
  | WSIn.dataFrame _ => s

/-- `handleOpen`: the socket is now open; mark connected, reset
`reconnectCount` to 0, send one subscribe frame per entry of the static
`wsConfig.subscriptions` list (each via a `setTimeout(..., 100)`, i.e. after
the handler, in list order), and start the heartbeat interval. -/
def handleOpen (cfg : WSConfig) (s : WSState) : WSState :=
  let s1 := { s with wsOpen := true, isConnected := true,
                     isConnecting := false, reconnectCount := 0,
                     heartbeatActive := true }
  cfg.subscriptions.foldl (fun st sub => wsSubscribe sub st) s1

/-- The reconnect backoff in `handleClose`:
`wsConfig.reconnectInterval * Math.pow(2, state.reconnectCount)` — no cap is
applied. -/
def reconnectDelay (cfg : WSConfig) (n : Nat) : Nat :=
  cfg.reconnectInterval * 2 ^ n

/-- `handleClose(event)`: stop the heartbeat; if the close was not
operator-initiated (`code !== 1000`) and attempts remain, increment
`reconnectCount` and schedule `connect` after the uncapped exponential
delay. -/
def handleClose (cfg : WSConfig) (code : Nat) (s : WSState) : WSState :=
  let s1 := { s with wsOpen := false, isConnected := false,
                     isConnecting := false, heartbeatActive := false }
  if code ≠ 1000 ∧ s.reconnectCount < cfg.reconnectAttempts then
    { s1 with reconnectCount := s.reconnectCount + 1,
              reconnectScheduled := some (reconnectDelay cfg s.reconnectCount) }
  else s1

/-! ## Concrete scenarios used by witnesses and counterexamples -/

/-- Config of the §8 LRU scenario: `maxSize = 2`, no expiry in range. -/
def c5cfg : CacheConfig := { maxSize := 2, defaultTTL := 1000000, enableLRU := true }

/-- `set(a); set(b); get(a); set(c)` at strictly increasing times 0,1,2,3. -/
def c5state : CacheState Nat :=
  cacheSet c5cfg 3 "c" 3 none []
    ((cacheGet c5cfg 2 "a"
      (cacheSet c5cfg 1 "b" 2 none []
        (cacheSet c5cfg 0 "a" 1 none [] emptyCacheState))).2)

def tradesBTC : WSSub := { type := "trades", coin := some "BTC", user := none }

/-- Fresh connection, then `subscribe({type:"trades", coin:"BTC"})` twice. -/
def twoSubscribesState : WSState :=
  wsSubscribe tradesBTC (wsSubscribe tradesBTC
    (handleOpen DEFAULT_WS_CONFIG initialWSState))

/-- Unexpected close (code 1006) after the two subscribe calls. -/
def afterCloseState : WSState := handleClose DEFAULT_WS_CONFIG 1006 twoSubscribesState

/-- The next successful connect after that close. -/
def nextConnectState : WSState := handleOpen DEFAULT_WS_CONFIG afterCloseState

/-! ## Key-uniqueness and size lemmas for the cache map -/

theorem mapSet_keys_nodup {V : Type} (k : String) (e : CacheEntry V)
    (c : CacheMap V) (h : (c.map Prod.fst).Nodup) :
    ((mapSet k e c).map Prod.fst).Nodup := by
  unfold mapSet
  split
  next hany =>
    have hkeys : (c.map (fun p => if p.1 = k then (k, e) else p)).map Prod.fst
        = c.map Prod.fst := by
      rw [List.map_map]
      apply List.map_congr_left
      intro p _
      by_cases hk : p.1 = k <;> simp [hk]
    rw [hkeys]
    exact h
  next hany =>
    rw [List.map_append]
    refine List.Nodup.append h (List.nodup_singleton k) ?_
    intro a ha hb
    rcases List.mem_map.mp ha with ⟨p, hp, hpa⟩
    rcases List.mem_singleton.mp hb with rfl
    have : ∀ p ∈ c, ¬ (p.1 = a) := by
      intro q hq hqa
      exact hany (List.any_eq_true.mpr ⟨q, hq, by simp [hqa]⟩)
    exact this p hp hpa

theorem cleanup_sublist {V : Type} (cfg : CacheConfig) (now : Int)
    (c : CacheMap V) : (cleanup cfg now c).Sublist c := by
  simp only [cleanup]
  split
  · exact (List.filter_sublist _).trans (List.filter_sublist _)
  · exact List.filter_sublist _

theorem cleanup_keys_nodup {V : Type} (cfg : CacheConfig) (now : Int)
    (c : CacheMap V) (h : (c.map Prod.fst).Nodup) :
    ((cleanup cfg now c).map Prod.fst).Nodup :=
  ((cleanup_sublist cfg now c).map Prod.fst).nodup h

theorem insertByAccess_perm {V : Type} (e : String × CacheEntry V)
    (l : CacheMap V) : (insertByAccess e l).Perm (e :: l) := by
  induction l with
  | nil => exact List.Perm.refl _
  | cons x xs ih =>
    unfold insertByAccess
    split
    · exact List.Perm.refl _
    · exact (ih.cons x).trans (List.Perm.swap e x xs)

theorem sortByAccess_perm {V : Type} (l : CacheMap V) :
    (sortByAccess l).Perm l := by
  induction l with
  | nil => exact List.Perm.refl _
  | cons x xs ih =>
    exact (insertByAccess_perm x (sortByAccess xs)).trans (ih.cons x)

theorem countP_mem_of_nodup (l ks : List String) (hl : l.Nodup)
    (hks : ks.Nodup) (hsub : ∀ k ∈ ks, k ∈ l) :
    l.countP (fun a => a ∈ ks) = ks.length := by
  induction l generalizing ks with
  | nil =>
    cases ks with
    | nil => simp
    | cons k ks => exact absurd (hsub k (List.mem_cons_self k ks)) (by simp)
  | cons a l' ih =>
    have hal' : a ∉ l' := (List.nodup_cons.mp hl).1
    have hl' : l'.Nodup := (List.nodup_cons.mp hl).2
    by_cases ha : a ∈ ks
    · rw [List.countP_cons_of_pos _ _ (by simpa using ha)]
      have hcong : l'.countP (fun x => x ∈ ks)
          = l'.countP (fun x => x ∈ ks.erase a) := by
        apply List.countP_congr
        intro x hx
        have hxa : x ≠ a := fun hxe => hal' (hxe ▸ hx)
        simp [List.mem_erase_of_ne hxa]
      rw [hcong, ih (ks.erase a) hl' (hks.erase a) ?_]
      · rw [List.length_erase_of_mem ha]
        have : 0 < ks.length := List.length_pos_of_mem ha
        omega
      · intro x hx
        have hxk : x ∈ ks := (hks.mem_erase_iff.mp hx).2
        have hxa : x ≠ a := (hks.mem_erase_iff.mp hx).1
        rcases List.mem_cons.mp (hsub x hxk) with h | h
        · exact absurd h hxa
        · exact h
    · rw [List.countP_cons_of_neg _ _ (by simpa using ha)]
      apply ih ks hl' hks
      intro x hx
      rcases List.mem_cons.mp (hsub x hx) with h | h
      · exact absurd (h ▸ hx) ha
      · exact h

theorem length_filter_not_mem_keys {V : Type} (c : CacheMap V)
    (ks : List String) (hc : (c.map Prod.fst).Nodup) (hks : ks.Nodup)
    (hsub : ∀ k ∈ ks, k ∈ c.map Prod.fst) :
    (c.filter (fun p => ¬ p.1 ∈ ks)).length = c.length - ks.length := by
  have h1 : (c.filter (fun p => ¬ p.1 ∈ ks)).length
      = c.countP (fun p => ¬ p.1 ∈ ks) := (List.countP_eq_length_filter _ _).symm
  have h2 : c.countP (fun p => p.1 ∈ ks)
      = (c.map Prod.fst).countP (fun a => a ∈ ks) := by
    rw [List.countP_map]
    rfl
  have h3 : (c.map Prod.fst).countP (fun a => a ∈ ks) = ks.length :=
    countP_mem_of_nodup (c.map Prod.fst) ks hc hks hsub
  have h4 := List.length_eq_countP_add_countP (fun p => decide (p.1 ∈ ks)) c
  have h5 : c.countP (fun a => decide ¬ (decide (a.1 ∈ ks)) = true)
      = c.countP (fun p => ¬ p.1 ∈ ks) := by
    apply List.countP_congr
    intro x _
    simp
  rw [h5] at h4
  omega

theorem cleanup_length_le {V : Type} (cfg : CacheConfig) (now : Int)
    (c : CacheMap V) (hc : (c.map Prod.fst).Nodup)
    (hL : cfg.enableLRU = true) :
    (cleanup cfg now c).length ≤ cfg.maxSize := by
  simp only [cleanup]
  split
  next hcond =>
    set live := c.filter (fun p => !isExpired now p.2) with hlive
    have hlive_nd : (live.map Prod.fst).Nodup :=
      ((List.filter_sublist c).map Prod.fst).nodup hc
    have hperm : (sortByAccess live).Perm live := sortByAccess_perm live
    have hkeysperm : ((sortByAccess live).map Prod.fst).Perm
        (live.map Prod.fst) := hperm.map _
    have hsorted_nd : ((sortByAccess live).map Prod.fst).Nodup :=
      hkeysperm.nodup_iff.mpr hlive_nd
    set n := live.length - cfg.maxSize with hn
    have htk : ((sortByAccess live).take n).map Prod.fst
        = ((sortByAccess live).map Prod.fst).take n := List.map_take _ _ _
    have hnd_rm : (((sortByAccess live).take n).map Prod.fst).Nodup := by
      rw [htk]
      exact (List.take_sublist n _).nodup hsorted_nd
    have hsub_rm : ∀ k ∈ ((sortByAccess live).take n).map Prod.fst,
        k ∈ live.map Prod.fst := by
      intro k hk
      rw [htk] at hk
      exact hkeysperm.mem_iff.mp ((List.take_sublist n _).subset hk)
    have hlen := length_filter_not_mem_keys live
      (((sortByAccess live).take n).map Prod.fst) hlive_nd hnd_rm hsub_rm
    have hn_le : n ≤ live.length := Nat.sub_le _ _
    have hlen_rm : (((sortByAccess live).take n).map Prod.fst).length = n := by
      rw [List.length_map, List.length_take, hperm.length_eq]
      exact Nat.min_eq_left hn_le
    rw [hlen_rm] at hlen
    rw [hlen]
    have hlt : cfg.maxSize < live.length := hcond.2
    omega
  next hcond =>
    have : ¬ cfg.maxSize < (c.filter (fun p => !isExpired now p.2)).length := by
      intro hlt
      exact hcond ⟨hL, hlt⟩
    omega

theorem cacheSet_keys_nodup {V : Type} (cfg : CacheConfig) (now : Int)
    (k : String) (v : V) (ttlArg : Option Int) (tags : List String)
    (s : CacheState V) (hc : (s.entries.map Prod.fst).Nodup) :
    (((cacheSet cfg now k v ttlArg tags s).entries).map Prod.fst).Nodup := by
  simp only [cacheSet]
  split
  · exact cleanup_keys_nodup _ _ _ (mapSet_keys_nodup _ _ _ hc)
  · exact mapSet_keys_nodup _ _ _ hc

theorem cacheSet_length_le {V : Type} (cfg : CacheConfig) (now : Int)
    (k : String) (v : V) (ttlArg : Option Int) (tags : List String)
    (s : CacheState V) (hc : (s.entries.map Prod.fst).Nodup)
    (hL : cfg.enableLRU = true) :
    ((cacheSet cfg now k v ttlArg tags s).entries).length ≤ cfg.maxSize := by
  simp only [cacheSet]
  split
  next h => exact cleanup_length_le _ _ _ (mapSet_keys_nodup _ _ _ hc) hL
  next h => omega

theorem applySets_length_le {V : Type} (cfg : CacheConfig)
    (hL : cfg.enableLRU = true) (ops : List (SetOp V)) :
    ∀ s : CacheState V, (s.entries.map Prod.fst).Nodup → ops ≠ [] →
      ((applySets cfg ops s).entries).length ≤ cfg.maxSize := by
  induction ops with
  | nil => intro s _ h; exact absurd rfl h
  | cons op rest ih =>
    intro s hnd _
    show ((applySets cfg rest
        (cacheSet cfg op.now op.key op.value op.ttlArg op.tags s)).entries).length
      ≤ cfg.maxSize
    by_cases hr : rest = []
    · subst hr
      exact cacheSet_length_le cfg op.now op.key op.value op.ttlArg op.tags s
        hnd hL
    · exact ih _ (cacheSet_keys_nodup cfg op.now op.key op.value op.ttlArg
        op.tags s hnd) hr

/-- Claim C1: for any sequence of `set` calls on an `AdvancedCache` with
LRU enabled (the default), immediately after each `set` call the number of
entries in the store is at most `maxSize`: the eviction pass triggered by
`set` removes enough least-recently-accessed entries to restore the cap. -/
theorem cache_size_bound {V : Type} (cfg : CacheConfig)
    (hL : cfg.enableLRU = true) (ops : List (SetOp V)) (i : Nat)
    (hi : i < ops.length) :
    ((applySets cfg (ops.take (i + 1)) emptyCacheState).entries).length
      ≤ cfg.maxSize := by
  apply applySets_length_le cfg hL (ops.take (i + 1)) emptyCacheState
  · simp [emptyCacheState]
  · intro h
    have h0 : (ops.take (i + 1)).length = 0 := by rw [h]; rfl
    rw [List.length_take] at h0
    omega

/-- Witness for C1: two `set` calls on a cache with `maxSize = 1`; after the
second call the store holds at most one entry. -/
theorem cache_size_bound_witness :
    ((applySets { maxSize := 1, defaultTTL := 100, enableLRU := true }
        (List.take (1 + 1)
          [({ now := 0, key := "a", value := 0, ttlArg := none, tags := [] } : SetOp Nat),
           { now := 1, key := "b", value := 0, ttlArg := none, tags := [] }])
        emptyCacheState).entries).length ≤ 1 :=
  cache_size_bound { maxSize := 1, defaultTTL := 100, enableLRU := true }
    rfl
    [{ now := 0, key := "a", value := 0, ttlArg := none, tags := [] },
     { now := 1, key := "b", value := 0, ttlArg := none, tags := [] }]
    1 (by decide)

/-! ## Lookup lemmas for `get` -/

theorem mapSet_all_key {V : Type} (k : String) (e : CacheEntry V)
    (c : CacheMap V) : ∀ p ∈ mapSet k e c, p.1 = k → p.2 = e := by
  intro p hp hpk
  unfold mapSet at hp
  split at hp
  next hany =>
    rcases List.mem_map.mp hp with ⟨q, hq, rfl⟩
    by_cases hqk : q.1 = k
    · simp [hqk]
    · rw [if_neg hqk] at hpk ⊢
      exact absurd hpk hqk
  next hany =>
    rcases List.mem_append.mp hp with h | h
    · exact absurd (List.any_eq_true.mpr ⟨p, h, by simp [hpk]⟩) hany
    · rw [List.mem_singleton.mp h]

theorem lookupKey_eq_of_all {V : Type} (k : String) (e : CacheEntry V)
    (c : CacheMap V) (h : ∀ p ∈ c, p.1 = k → p.2 = e) :
    lookupKey k c = none ∨ lookupKey k c = some e := by
  unfold lookupKey
  cases hf : c.find? (fun p => p.1 = k) with
  | none => exact Or.inl rfl
  | some p =>
    refine Or.inr ?_
    have hp1 : p.1 = k := by simpa using List.find?_some hf
    rw [Option.map_some']
    rw [h p (List.mem_of_find?_eq_some hf) hp1]

theorem lookupKey_filter_self {V : Type} (k : String) (c : CacheMap V) :
    lookupKey k (c.filter (fun p => ¬ p.1 = k)) = none := by
  unfold lookupKey
  rw [List.find?_eq_none.mpr]
  · rfl
  · intro p hp
    have h2 := (List.mem_filter.mp hp).2
    simp at h2 ⊢
    exact h2

theorem cacheGet_of_lookup_none {V : Type} (cfg : CacheConfig) (now : Int)
    (k : String) (s : CacheState V) (h : lookupKey k s.entries = none) :
    cacheGet cfg now k s = (none, { s with missCount := s.missCount + 1 }) := by
  unfold cacheGet
  rw [h]

theorem cacheGet_expired {V : Type} (cfg : CacheConfig) (now : Int)
    (k : String) (s : CacheState V) (e : CacheEntry V)
    (hl : lookupKey k s.entries = some e) (hx : now - e.timestamp > e.ttl) :
    cacheGet cfg now k s =
      (none, { s with entries := s.entries.filter (fun p => ¬ p.1 = k),
                      missCount := s.missCount + 1 }) := by
  simp only [cacheGet, hl]
  rw [if_pos hx]

theorem cacheSet_all_key {V : Type} (cfg : CacheConfig) (now : Int)
    (k : String) (v : V) (ttlArg : Option Int) (tags : List String)
    (s : CacheState V) :
    ∀ p ∈ (cacheSet cfg now k v ttlArg tags s).entries, p.1 = k →
      p.2 = { data := v, timestamp := now,
              ttl := match ttlArg with
                     | some t => if t = 0 then cfg.defaultTTL else t
                     | none => cfg.defaultTTL,
              accessCount := 0, lastAccessed := now, tags := tags } := by
  intro p hp hpk
  simp only [cacheSet] at hp
  refine mapSet_all_key k _ s.entries p ?_ hpk
  split at hp
  · exact (cleanup_sublist _ _ _).subset hp
  · exact hp

/-- Claim C4: a `get` strictly more than `ttl` after the entry was stored
(no overwrite in between) is a miss: it returns `none`, removes the entry,
and never returns expired data; a `get` on an absent key is likewise a
plain `none` miss, not an error (the model is a total function). -/
theorem ttl_get_miss {V : Type} (cfg : CacheConfig) (s : CacheState V)
    (k : String) (v : V) (t : Int) (tags : List String) (t0 now : Int)
    (ht : t ≠ 0) (hexp : now - t0 > t) :
    (cacheGet cfg now k (cacheSet cfg t0 k v (some t) tags s)).1 = none ∧
    lookupKey k
      ((cacheGet cfg now k (cacheSet cfg t0 k v (some t) tags s)).2).entries
        = none ∧
    (∀ (s₂ : CacheState V) (k₂ : String), lookupKey k₂ s₂.entries = none →
      (cacheGet cfg now k₂ s₂).1 = none) := by
  have habs : ∀ (s₂ : CacheState V) (k₂ : String),
      lookupKey k₂ s₂.entries = none → (cacheGet cfg now k₂ s₂).1 = none := by
    intro s₂ k₂ h₂
    rw [cacheGet_of_lookup_none cfg now k₂ s₂ h₂]
  have hall : ∀ p ∈ (cacheSet cfg t0 k v (some t) tags s).entries, p.1 = k →
      p.2 = ({ data := v, timestamp := t0, ttl := t, accessCount := 0,
               lastAccessed := t0, tags := tags } : CacheEntry V) := by
    intro p hp hpk
    have h0 := cacheSet_all_key cfg t0 k v (some t) tags s p hp hpk
    rw [h0]
    simp [ht]
  rcases lookupKey_eq_of_all k _ _ hall with hnone | hsome
  · refine ⟨?_, ?_, habs⟩
    · rw [cacheGet_of_lookup_none cfg now k _ hnone]
    · rw [cacheGet_of_lookup_none cfg now k _ hnone]
      exact hnone
  · rw [cacheGet_expired cfg now k _ _ hsome hexp]
    exact ⟨rfl, lookupKey_filter_self k _, habs⟩

/-- Witness for C4: the §8 scenario — `set(k, v, ttl=100)` at time 0, `get`
at time 101 misses. -/
theorem ttl_get_miss_witness :
    (cacheGet DEFAULT_CACHE_CONFIG 101 "k"
      (cacheSet DEFAULT_CACHE_CONFIG 0 "k" (0 : Nat) (some 100) []
        emptyCacheState)).1 = none :=
  (ttl_get_miss DEFAULT_CACHE_CONFIG emptyCacheState "k" 0 100 [] 0 101
    (by decide) (by decide)).1

/-- Claim C5: with `maxSize = 2` and no expiry, `set(a); set(b); get(a);
set(c)` at strictly increasing times evicts exactly `b` (the oldest
`lastAccessed`): the surviving keys are `a` and `c`, both retrievable, and
`b` misses — the hit on `a` refreshed its `lastAccessed` so it was not the
LRU victim. -/
theorem lru_eviction_scenario :
    c5state.entries.map Prod.fst = ["a", "c"] ∧
    (cacheGet c5cfg 4 "a" c5state).1 = some 1 ∧
    (cacheGet c5cfg 4 "c" c5state).1 = some 3 ∧
    (cacheGet c5cfg 4 "b" c5state).1 = none := by decide

/-- Claim C10: `getStats` reports `hitRate` as a percentage:
`100 * hitCount / (hitCount + missCount)` when at least one `get` happened,
`0` when none did, and always within `[0, 100]`. -/
theorem hit_rate_bounds {V : Type} (cfg : CacheConfig) (s : CacheState V) :
    (0 < s.hitCount + s.missCount →
      (getStats cfg s).hitRate
        = 100 * (s.hitCount : ℚ) / ((s.hitCount : ℚ) + (s.missCount : ℚ))) ∧
    (s.hitCount + s.missCount = 0 → (getStats cfg s).hitRate = 0) ∧
    0 ≤ (getStats cfg s).hitRate ∧ (getStats cfg s).hitRate ≤ 100 := by
  simp only [getStats]
  by_cases h : 0 < s.hitCount + s.missCount
  · rw [if_pos h]
    have hpos : (0 : ℚ) < (s.hitCount : ℚ) + (s.missCount : ℚ) := by
      exact_mod_cast h
    refine ⟨fun _ => by ring, fun h0 => absurd h0 (by omega), ?_, ?_⟩
    · positivity
    · have hle : (s.hitCount : ℚ) / ((s.hitCount : ℚ) + (s.missCount : ℚ)) ≤ 1 := by
        rw [div_le_one hpos]
        have : (0 : ℚ) ≤ (s.missCount : ℚ) := by positivity
        linarith
      calc (s.hitCount : ℚ) / ((s.hitCount : ℚ) + (s.missCount : ℚ)) * 100
          ≤ 1 * 100 := by
            apply mul_le_mul_of_nonneg_right hle
            norm_num
        _ = 100 := by norm_num
  · rw [if_neg h]
    exact ⟨fun h0 => absurd h0 h, fun _ => rfl, le_refl 0, by norm_num⟩

/-- Witness for C10 at three hits and one miss: `hitRate = 75`. -/
theorem hit_rate_bounds_witness :
    (getStats DEFAULT_CACHE_CONFIG
      ({ entries := [], hitCount := 3, missCount := 1 } : CacheState Nat)).hitRate
      = 100 * ((3 : Nat) : ℚ) / (((3 : Nat) : ℚ) + ((1 : Nat) : ℚ)) :=
  (hit_rate_bounds DEFAULT_CACHE_CONFIG
    { entries := [], hitCount := 3, missCount := 1 }).1 (by decide)

/-! ## Retry executor theorems -/

theorem retryGo_always_fails {E V : Type} (retryable : E → Bool)
    (op : Nat → Except E V) (errs : Nat → E)
    (hop : ∀ i, op i = Except.error (errs i))
    (hret : ∀ i, retryable (errs i) = true) :
    ∀ (r idx : Nat), retryGo retryable true op r idx
      = (Except.error (errs (idx + r)), r + 1, none) := by
  intro r
  induction r with
  | zero => intro idx; simp [retryGo, hop]
  | succ r ih =>
    intro idx
    have harith : idx + (r + 1) = (idx + 1) + r := by omega
    simp only [retryGo, hop idx, hret idx, Bool.true_and, Bool.and_self,
      if_true, ih (idx + 1), harith]

/-- Claim C2 (amended): an operation that always fails with a retryable
error, executed while online with `maxRetries = 3`, is invoked
`maxRetries + 1 = 4` times (one initial attempt plus `maxRetries` retries,
since the guard is `attempts < maxRetries` and `attempts` counts completed
retries); the error of the last invocation is surfaced and the attempts-map
entry for the operation id ends up discarded. -/
theorem retry_exhaustion_amended {E V : Type} (cfg : RetryConfig)
    (retryable : E → Bool) (op : Nat → Except E V) (errs : Nat → E)
    (hop : ∀ i, op i = Except.error (errs i))
    (hret : ∀ i, retryable (errs i) = true) :
    retryWithBackoff cfg retryable true op
      = (Except.error (errs cfg.maxRetries), cfg.maxRetries + 1, none) := by
  unfold retryWithBackoff
  have h := retryGo_always_fails retryable op errs hop hret cfg.maxRetries 0
  simpa using h

/-- Witness for the amended C2 with the default config (`maxRetries = 3`):
4 invocations, last error surfaced, retry state discarded. -/
theorem retry_exhaustion_amended_witness :
    retryWithBackoff DEFAULT_RETRY_CONFIG (fun _ => true) true
      (fun _ => (Except.error 0 : Except Nat Nat))
      = (Except.error 0, 4, none) :=
  retry_exhaustion_amended DEFAULT_RETRY_CONFIG (fun _ => true)
    (fun _ => Except.error 0) (fun _ => 0) (fun _ => rfl) (fun _ => rfl)

/-- Counterexample to C2 as stated: with `maxRetries = 3`, an
always-failing retryable operation executed online is invoked 4 times, not
exactly 3 — the code performs one initial attempt plus 3 retries. -/
theorem retry_count_counterexample :
    (retryWithBackoff DEFAULT_RETRY_CONFIG (fun _ => true) true
      (fun _ => (Except.error 0 : Except Nat Nat))).2.1 = 4 ∧
    ¬ (retryWithBackoff DEFAULT_RETRY_CONFIG (fun _ => true) true
      (fun _ => (Except.error 0 : Except Nat Nat))).2.1 = 3 := by decide

/-- Claim C3: the retry delay is
`min(initialDelay * backoffMultiplier ^ attempts, maxDelay)`; it is
nondecreasing in the attempt number (for any multiplier ≥ 1), never exceeds
`maxDelay`, and with the default config (1000ms, ×2, cap 30000ms) the delay
sequence for attempts 0..6 is exactly
1000, 2000, 4000, 8000, 16000, 30000, 30000. -/
theorem backoff_delay_formula :
    (∀ (cfg : RetryConfig) (n : Nat), retryDelay cfg n
        = min (cfg.initialDelay * cfg.backoffMultiplier ^ n) cfg.maxDelay) ∧
    (∀ (cfg : RetryConfig) (n : Nat), 1 ≤ cfg.backoffMultiplier →
        retryDelay cfg n ≤ retryDelay cfg (n + 1)) ∧
    (∀ (cfg : RetryConfig) (n : Nat), retryDelay cfg n ≤ cfg.maxDelay) ∧
    (List.range 7).map (retryDelay DEFAULT_RETRY_CONFIG)
        = [1000, 2000, 4000, 8000, 16000, 30000, 30000] := by
  refine ⟨fun _ _ => rfl, ?_, fun cfg n => min_le_right _ _, by decide⟩
  intro cfg n h
  exact min_le_min
    (Nat.mul_le_mul_left _ (Nat.pow_le_pow_right h (Nat.le_succ n)))
    (le_refl _)

/-- Witness for C3's monotonicity conjunct at the default config. -/
theorem backoff_delay_formula_witness :
    retryDelay DEFAULT_RETRY_CONFIG 2 ≤ retryDelay DEFAULT_RETRY_CONFIG 3 :=
  backoff_delay_formula.2.1 DEFAULT_RETRY_CONFIG 2 (by decide)

/-! ## Rate limiter theorems -/

theorem foldl_min_le_init (l : List Int) (a : Int) : l.foldl min a ≤ a := by
  induction l generalizing a with
  | nil => exact le_refl a
  | cons h t ih => exact le_trans (ih (min a h)) (min_le_left a h)

theorem foldl_min_le_mem (l : List Int) (a : Int) :
    ∀ x ∈ l, l.foldl min a ≤ x := by
  induction l generalizing a with
  | nil => intro x hx; exact absurd hx (List.not_mem_nil x)
  | cons h t ih =>
    intro x hx
    rcases List.mem_cons.mp hx with rfl | hx'
    · exact le_trans (foldl_min_le_init t (min a x)) (min_le_right a x)
    · exact ih (min a h) x hx'

theorem foldl_min_mem (l : List Int) (a : Int) :
    l.foldl min a = a ∨ l.foldl min a ∈ l := by
  induction l generalizing a with
  | nil => exact Or.inl rfl
  | cons h t ih =>
    rcases ih (min a h) with heq | hmem
    · rcases min_choice a h with hc | hc
      · exact Or.inl (by rw [List.foldl_cons, heq, hc])
      · refine Or.inr ?_
        rw [List.foldl_cons, heq, hc]
        exact List.mem_cons_self h t
    · exact Or.inr (List.mem_cons_of_mem h hmem)

/-- Claim C9 (amended): with at least one recorded request, `getResetTime`
returns the oldest recorded timestamp (the minimum of the window) plus the
window duration; with no recorded requests it returns `0`, not the current
time. -/
theorem reset_time_amended (requests : List Int) (w : Int)
    (h : requests ≠ []) :
    getResetTime requests w = oldestRequest requests + w ∧
    oldestRequest requests ∈ requests ∧
    (∀ x ∈ requests, oldestRequest requests ≤ x) ∧
    getResetTime [] w = 0 := by
  refine ⟨?_, ?_, ?_, rfl⟩
  · unfold getResetTime
    rw [if_neg (fun hc => h (List.isEmpty_iff.mp hc))]
  · cases requests with
    | nil => exact absurd rfl h
    | cons a t =>
      show t.foldl min a ∈ a :: t
      rcases foldl_min_mem t a with heq | hmem
      · rw [heq]; exact List.mem_cons_self a t
      · exact List.mem_cons_of_mem a hmem
  · cases requests with
    | nil => intro x hx; exact absurd hx (List.not_mem_nil x)
    | cons a t =>
      intro x hx
      show t.foldl min a ≤ x
      rcases List.mem_cons.mp hx with rfl | hx'
      · exact foldl_min_le_init t x
      · exact foldl_min_le_mem t a x hx'

/-- Witness for the amended C9 on the recorded window `[3, 9, 5]`. -/
theorem reset_time_amended_witness :
    getResetTime ([3, 9, 5] : List Int) 60000
        = oldestRequest ([3, 9, 5] : List Int) + 60000 ∧
    oldestRequest ([3, 9, 5] : List Int) ∈ ([3, 9, 5] : List Int) ∧
    (∀ x ∈ ([3, 9, 5] : List Int), oldestRequest ([3, 9, 5] : List Int) ≤ x) ∧
    getResetTime ([] : List Int) 60000 = 0 :=
  reset_time_amended [3, 9, 5] 60000 (by decide)

/-- Counterexample to C9 as stated: with no recorded requests at a moment
when the current time is 1700000000000, `getResetTime` returns `0`, not the
current time. -/
theorem reset_time_counterexample :
    getResetTime ([] : List Int) 60000 = 0 ∧
    getResetTime ([] : List Int) 60000 ≠ 1700000000000 := by decide

/-! ## WebSocket connection theorems -/

theorem wsSubscribe_fields (sub : WSSub) (s : WSState) :
    (wsSubscribe sub s).wsOpen = s.wsOpen ∧
    (wsSubscribe sub s).isConnected = s.isConnected ∧
    (wsSubscribe sub s).reconnectCount = s.reconnectCount ∧
    (wsSubscribe sub s).reconnectScheduled = s.reconnectScheduled := by
  unfold wsSubscribe sendMessage
  split <;> exact ⟨rfl, rfl, rfl, rfl⟩

theorem wsSubscribe_sent_open (sub : WSSub) (s : WSState)
    (h : s.wsOpen = true) :
    (wsSubscribe sub s).sent = s.sent ++ [WSOut.subscribeMsg sub] := by
  unfold wsSubscribe sendMessage
  rw [if_pos h]

theorem foldl_wsSubscribe_sent (subs : List WSSub) (st : WSState)
    (h : st.wsOpen = true) :
    (subs.foldl (fun s sub => wsSubscribe sub s) st).sent
        = st.sent ++ subs.map WSOut.subscribeMsg ∧
    (subs.foldl (fun s sub => wsSubscribe sub s) st).wsOpen = true := by
  induction subs generalizing st with
  | nil => exact ⟨(List.append_nil _).symm, h⟩
  | cons sub subs ih =>
    have hopen : (wsSubscribe sub st).wsOpen = true :=
      (wsSubscribe_fields sub st).1.trans h
    rcases ih (wsSubscribe sub st) hopen with ⟨h1, h2⟩
    refine ⟨?_, by rw [List.foldl_cons]; exact h2⟩
    rw [List.foldl_cons, h1, wsSubscribe_sent_open sub st h,
      List.append_assoc]
    rfl

theorem foldl_wsSubscribe_reconnectCount (subs : List WSSub) (st : WSState) :
    (subs.foldl (fun s sub => wsSubscribe sub s) st).reconnectCount
      = st.reconnectCount := by
  induction subs generalizing st with
  | nil => rfl
  | cons sub subs ih =>
    rw [List.foldl_cons, ih (wsSubscribe sub st),
      (wsSubscribe_fields sub st).2.2.1]

/-- Claim C6 (amended): `subscribe` records nothing in any tracked
subscription set — while the socket is open each call immediately sends one
subscribe frame, so two identical calls send two frames; and each
successful connect replays exactly the static config subscription list, one
frame per entry, regardless of earlier `subscribe` calls. -/
theorem subscription_replay_amended (cfg : WSConfig) (s : WSState)
    (sub : WSSub) (h : s.wsOpen = true) :
    (wsSubscribe sub (wsSubscribe sub s)).sent
        = s.sent ++ [WSOut.subscribeMsg sub, WSOut.subscribeMsg sub] ∧
    (handleOpen cfg s).sent
        = s.sent ++ cfg.subscriptions.map WSOut.subscribeMsg := by
  constructor
  · have hopen : (wsSubscribe sub s).wsOpen = true :=
      (wsSubscribe_fields sub s).1.trans h
    rw [wsSubscribe_sent_open sub _ hopen, wsSubscribe_sent_open sub s h,
      List.append_assoc]
    rfl
  · unfold handleOpen
    exact (foldl_wsSubscribe_sent cfg.subscriptions _ rfl).1

/-- Witness for the amended C6: a freshly opened connection with the
default (empty) config subscription list. -/
theorem subscription_replay_amended_witness :
    (wsSubscribe tradesBTC (wsSubscribe tradesBTC
        (handleOpen DEFAULT_WS_CONFIG initialWSState))).sent
      = (handleOpen DEFAULT_WS_CONFIG initialWSState).sent
        ++ [WSOut.subscribeMsg tradesBTC, WSOut.subscribeMsg tradesBTC] ∧
    (handleOpen DEFAULT_WS_CONFIG
        (handleOpen DEFAULT_WS_CONFIG initialWSState)).sent
      = (handleOpen DEFAULT_WS_CONFIG initialWSState).sent
        ++ DEFAULT_WS_CONFIG.subscriptions.map WSOut.subscribeMsg :=
  subscription_replay_amended DEFAULT_WS_CONFIG
    (handleOpen DEFAULT_WS_CONFIG initialWSState) tradesBTC rfl

/-- Counterexample to C6 as stated: after a fresh connect (empty config
list), calling `subscribe({type:"trades", coin:"BTC"})` twice sends two
immediate subscribe frames (not idempotent), and on the next successful
connect zero subscribe frames are sent for that subscription — not exactly
one, because `subscribe` never added it to any tracked set. -/
theorem subscription_replay_counterexample :
    twoSubscribesState.sent.countP
        (fun m => m = WSOut.subscribeMsg tradesBTC) = 2 ∧
    (nextConnectState.sent.drop afterCloseState.sent.length).countP
        (fun m => m = WSOut.subscribeMsg tradesBTC) = 0 ∧
    ¬ ((nextConnectState.sent.drop afterCloseState.sent.length).countP
        (fun m => m = WSOut.subscribeMsg tradesBTC) = 1) := by decide

/-- Claim C7 (amended): the heartbeat only measures latency — incoming
messages (pong or data) and outgoing pings never change `isConnected` and
never schedule a reconnect, so a silently dead connection stays `Connected`
indefinitely; only a close event leaves the connected state. -/
theorem heartbeat_no_staleness (s : WSState) (now : Int) (msg : WSIn)
    (sub : WSSub) :
    (handleMessage now msg s).isConnected = s.isConnected ∧
    (handleMessage now msg s).reconnectScheduled = s.reconnectScheduled ∧
    (sendPing now s).isConnected = s.isConnected ∧
    (sendPing now s).reconnectScheduled = s.reconnectScheduled ∧
    (handleMessage now WSIn.pong s).latency = now - s.pingTime ∧
    (wsSubscribe sub s).isConnected = s.isConnected := by
  refine ⟨?_, ?_, ?_, ?_, rfl, (wsSubscribe_fields sub s).2.1⟩
  · cases msg <;> rfl
  · cases msg <;> rfl
  · unfold sendPing sendMessage
    split <;> rfl
  · unfold sendPing sendMessage
    split <;> rfl

/-- Counterexample to C7 as stated: a ping is sent at time 0 while
connected, no pong arrives, and at time 70000 — more than
`heartbeatInterval × 2 = 60000` later — the state is still `Connected` with
no reconnect scheduled: no `Connected → Reconnecting` transition exists for
a missing pong. -/
theorem heartbeat_counterexample :
    (handleMessage 70000 (WSIn.dataFrame "trades")
        (sendPing 0 (handleOpen DEFAULT_WS_CONFIG initialWSState))).isConnected
      = true ∧
    (handleMessage 70000 (WSIn.dataFrame "trades")
        (sendPing 0 (handleOpen DEFAULT_WS_CONFIG initialWSState))).reconnectScheduled
      = none := by decide

/-- Claim C8 (amended): the reconnect delay before attempt `n` is
`reconnectInterval * 2 ^ n` with no cap (unlike the retry executor's
formula there is no `maxDelay`); the attempt counter increments on each
unexpected close while attempts remain, resets to zero on every successful
open, and three consecutive failed closes from a fresh connection bring it
to 3. -/
theorem reconnect_backoff_amended (cfg : WSConfig) (s : WSState)
    (code : Nat) (hcode : code ≠ 1000)
    (hcnt : s.reconnectCount < cfg.reconnectAttempts) :
    (handleClose cfg code s).reconnectScheduled
        = some (cfg.reconnectInterval * 2 ^ s.reconnectCount) ∧
    (handleClose cfg code s).reconnectCount = s.reconnectCount + 1 ∧
    (∀ (cfg2 : WSConfig) (s2 : WSState),
        (handleOpen cfg2 s2).reconnectCount = 0) ∧
    ((handleClose DEFAULT_WS_CONFIG 1006)^[3]
        (handleOpen DEFAULT_WS_CONFIG initialWSState)).reconnectCount = 3 := by
  refine ⟨?_, ?_, ?_, by decide⟩
  · unfold handleClose
    rw [if_pos ⟨hcode, hcnt⟩]
    rfl
  · unfold handleClose
    rw [if_pos ⟨hcode, hcnt⟩]
  · intro cfg2 s2
    unfold handleOpen
    exact foldl_wsSubscribe_reconnectCount cfg2.subscriptions _

/-- Witness for the amended C8: the first unexpected close of a fresh
connection schedules a reconnect after `3000 * 2 ^ 0` ms. -/
theorem reconnect_backoff_amended_witness :
    (handleClose DEFAULT_WS_CONFIG 1006
        (handleOpen DEFAULT_WS_CONFIG initialWSState)).reconnectScheduled
      = some (DEFAULT_WS_CONFIG.reconnectInterval
          * 2 ^ (handleOpen DEFAULT_WS_CONFIG initialWSState).reconnectCount) :=
  (reconnect_backoff_amended DEFAULT_WS_CONFIG
    (handleOpen DEFAULT_WS_CONFIG initialWSState) 1006 (by decide)
    (by decide)).1

/-- Counterexample to C8 as stated: after five consecutive unexpected
closes the scheduled delay is `3000 * 2 ^ 4 = 48000` ms, which exceeds the
retry executor's 30000 ms cap and differs from the claimed
`min(reconnectInterval * 2 ^ n, maxDelay)` — the code applies no cap. -/
theorem reconnect_backoff_counterexample :
    ((handleClose DEFAULT_WS_CONFIG 1006)^[5]
        (handleOpen DEFAULT_WS_CONFIG initialWSState)).reconnectScheduled
      = some 48000 ∧
    ¬ (48000 ≤ 30000) ∧
    ¬ (((handleClose DEFAULT_WS_CONFIG 1006)^[5]
        (handleOpen DEFAULT_WS_CONFIG initialWSState)).reconnectScheduled
      = some (min (DEFAULT_WS_CONFIG.reconnectInterval * 2 ^ 4)
          DEFAULT_RETRY_CONFIG.maxDelay)) := by decide

end PrepTrade
